import Mathlib

/-!
Verification of the installation-state reconciliation and update engine of the
hellas-launcher repository.  The definitions below are a shallow embedding of
the functions in src/main/update.js, src/main/main.js and src/main/launcher.js;
each definition carries a reference to the source lines it embeds.
-/

namespace Hellas

/-! Structural implementations of the JavaScript string primitives the source
uses (trim, toLowerCase, startsWith, endsWith, slicing), over the character
list of the string so that they compute by plain structural recursion. -/

/-- String.prototype.trim: strip whitespace from both ends. -/
def jsTrim (s : String) : String :=
  ⟨((s.data.dropWhile Char.isWhitespace).reverse.dropWhile Char.isWhitespace).reverse⟩

/-- String.prototype.toLowerCase (ASCII case folding). -/
def lowerStr (s : String) : String := ⟨s.data.map Char.toLower⟩

/-- String.prototype.startsWith. -/
def strStarts (s pre : String) : Bool := pre.data.isPrefixOf s.data

/-- String.prototype.endsWith. -/
def strEnds (s suf : String) : Bool := suf.data.isSuffixOf s.data

/-- Drop the first n characters of a string. -/
def strDrop (s : String) (n : Nat) : String := ⟨s.data.drop n⟩

/-- Drop the last n characters of a string. -/
def strDropRight (s : String) (n : Nat) : String := ⟨s.data.take (s.data.length - n)⟩

/-- JavaScript truthiness of a string value: the empty string is falsy. -/
def strTruthy (s : String) : Bool := s ≠ ""

/-- JavaScript truthiness of a possibly-absent string field: absent
(undefined/null) and the empty string are falsy. -/
def optTruthy (o : Option String) : Bool :=
  match o with
  | none => false
  | some s => strTruthy s

/-- JavaScript `a || b` on possibly-absent string values, normalising a falsy
result to `none` (models the trailing `|| null` used throughout the source). -/
def jsOr (a b : Option String) : Option String :=
  if optTruthy a then a else if optTruthy b then b else none

/-- Environment variables read by update.js (absent variables are modelled as
the empty string, matching `process.env.X || ''`). -/
structure Env where
  PACK_FEED_URL : String
  PACK_ZIP_URL : String
  PACK_VERSION : String
  PACK_EXPECTED_SHA256 : String

/-- update.js line 8: the hardcoded default direct pack URL. -/
def DEFAULT_PACK_URL : String := "https://hellasregion.com/download/launcher/latest/compact"

/-- The update-source object returned by resolveUpdateSource.  A feed object
carries only feedUrl (its `url` property is absent); a direct object carries
url, version and sha256. -/
inductive UpdateSource where
  | feed (feedUrl : String)
  | direct (url : String) (version : Option String) (sha256 : Option String)
deriving DecidableEq, Repr

/-- Convert an environment string to the `x || null` form used by the source
for PACK_VERSION and PACK_EXPECTED_SHA256. -/
def envOrNull (s : String) : Option String :=
  if strTruthy s then some s else none

/-- update.js lines 15-40: resolveUpdateSource.  Trims both URLs, prefers a
feed source, otherwise falls back to PACK_ZIP_URL or the hardcoded default,
and returns null only when the resulting direct URL is empty. -/
def resolveUpdateSource (env : Env) : Option UpdateSource :=
  let feedUrl := jsTrim env.PACK_FEED_URL
  let directUrl := jsTrim env.PACK_ZIP_URL
  if strTruthy feedUrl then
    some (.feed feedUrl)
  else
    let resolvedDirectUrl := if strTruthy directUrl then directUrl else DEFAULT_PACK_URL
    if strTruthy resolvedDirectUrl then
      some (.direct resolvedDirectUrl (envOrNull env.PACK_VERSION)
        (envOrNull env.PACK_EXPECTED_SHA256))
    else
      none

/-- The `url` property of an update-source object: a feed object has no such
property (undefined), a direct object carries its url. -/
def UpdateSource.urlField : UpdateSource → Option String
  | .feed _ => none
  | .direct url _ _ => some url

/-- main.js lines 342, 459, 494 and update.js line 310: the guard
`!updateSource || !updateSource.url` used by the perform-install,
trigger-update and fresh-reinstall handlers (and by freshReinstall itself).
Returns true when the handler accepts the source and proceeds; false when it
raises the configuration error. -/
def handlerAcceptsSource (s : Option UpdateSource) : Bool :=
  match s with
  | none => false
  | some src => optTruthy src.urlField

/-! Error values.  The source raises plain `Error` objects distinguished by
their message, except cancellation errors which additionally carry
`cancelled = true` and `name = 'AbortError'` (update.js lines 65-70); the
`cancelled` field below models that pair of flags. -/

/-- A JavaScript error as thrown by the update engine: a message plus the
cancellation marker tested by `error.cancelled || error.name === 'AbortError'`. -/
structure JsError where
  message : String
  cancelled : Bool
deriving DecidableEq, Repr

/-- update.js lines 65-70: asCancellationError with its default message. -/
def cancellationError : JsError :=
  { message := "Update cancelled by user.", cancelled := true }

/-- update.js line 248: the checksum-mismatch error (the IntegrityError of the
spec taxonomy). -/
def checksumError : JsError :=
  { message := "Downloaded archive checksum does not match expected SHA-256.", cancelled := false }

/-- update.js lines 165 and 192: a non-2xx archive download.  The source
interpolates the HTTP status into the message; the status text is elided
here. -/
def downloadFailedError : JsError :=
  { message := "Failed to download update archive.", cancelled := false }

/-- update.js line 180: a descriptor whose modpack URL is missing. -/
def descriptorMissingUrlError : JsError :=
  { message := "Update descriptor missing the modpack URL.", cancelled := false }

/-- update.js line 177: response.clone().json() rejecting.  The exact
JSON.parse message is environment dependent and elided here. -/
def descriptorParseError : JsError :=
  { message := "Invalid JSON in update descriptor.", cancelled := false }

/-- main.js line 174: the single-flight guard error (the ConcurrencyError of
the spec taxonomy). -/
def busyErrorMessage : String := "Another download is already in progress."

/-! The HTTP and descriptor model.  A response carries the observations the
source makes of it: ok flag, content-type header, the optional Content-Length
header, the actual body size, the outcome of parsing the body as JSON, and the
hex digest of the body bytes. -/

/-- The fields of a pack descriptor object the source reads
(update.js lines 178-184): url, version, sha256 and hash. -/
structure PackFields where
  url : Option String
  version : Option String
  sha256 : Option String
  hash : Option String
deriving DecidableEq, Repr

/-- A parsed JSON manifest: `manifest.modpack || manifest` picks the nested
modpack object when present (and truthy), else the manifest itself. -/
structure ManifestJson where
  modpack : Option PackFields
  top : PackFields
deriving DecidableEq, Repr

/-- The selection `manifest.modpack || manifest` of update.js line 178. -/
def packOf (m : ManifestJson) : PackFields :=
  match m.modpack with
  | some p => p
  | none => m.top

/-- An HTTP response as observed by downloadAndExtractUpdate.  bodyJson is the
outcome of JSON-parsing the body (none on a parse failure); bodyDigest is the
hex SHA-256 digest the streaming hasher would compute over the body. -/
structure HttpResponse where
  ok : Bool
  contentType : String
  contentLengthHeader : Option Nat
  bodySize : Nat
  bodyJson : Option ManifestJson
  bodyDigest : String
deriving DecidableEq, Repr

/-- Substring containment, as used by `contentType.includes('application/json')`. -/
def strContainsSub (s pat : String) : Bool :=
  decide (pat.toList <:+: s.toList)

/-- A resolved artifact: url plus optional version and sha256
(the `resolved` object of update.js line 144). -/
structure Resolved where
  url : String
  version : Option String
  sha256 : Option String
deriving DecidableEq, Repr

/-- update.js lines 168-173: the descriptor-sniffing trigger.  contentLength
is `Number(response.headers.get('content-length') || 0)`, i.e. 0 when the
header is absent. -/
def shouldAttemptDescriptor (resolvedUrl : String) (r : HttpResponse) : Bool :=
  let contentLength := r.contentLengthHeader.getD 0
  strContainsSub r.contentType "application/json" ||
    strEnds (lowerStr resolvedUrl) ".json" ||
    (decide (0 < contentLength) && decide (contentLength ≤ 512 * 1024))

/-- Outcome of the descriptor-sniffing block: either the pipeline proceeds
with some resolved artifact and some response to stream, or the block throws. -/
inductive StepResult where
  | proceed (resolved : Resolved) (response : HttpResponse)
  | errorOut (e : JsError)
deriving DecidableEq, Repr

/-- update.js lines 175-199: the descriptor-sniffing block.  `net` maps a URL
to the response of a GET against it.  When the trigger holds the body is
parsed; on success the resolved url/version/sha256 are overwritten from the
pack object and the GET is re-issued; any throw inside the try block is
swallowed unless the content-type was JSON.  Note that a failed re-issued GET
is swallowed the same way, leaving the pipeline streaming the non-ok second
response with the mutated resolved data, exactly as the source does. -/
def descriptorStep (net : String → HttpResponse) (resolved : Resolved)
    (response : HttpResponse) : StepResult :=
  let ctJson := strContainsSub response.contentType "application/json"
  if shouldAttemptDescriptor resolved.url response then
    match response.bodyJson with
    | none =>
        if ctJson then .errorOut descriptorParseError else .proceed resolved response
    | some manifest =>
        let pack := packOf manifest
        match pack.url with
        | some u =>
            if strTruthy u then
              let resolved' : Resolved :=
                { url := u
                  version := jsOr pack.version resolved.version
                  sha256 := jsOr pack.sha256 (jsOr pack.hash resolved.sha256) }
              let r2 := net u
              if r2.ok then .proceed resolved' r2
              else if ctJson then .errorOut downloadFailedError
              else .proceed resolved' r2
            else
              if ctJson then .errorOut descriptorMissingUrlError
              else .proceed resolved response
        | none =>
            if ctJson then .errorOut descriptorMissingUrlError
            else .proceed resolved response
  else
    .proceed resolved response

/-! The download pipeline (update.js lines 143-306), modelled for a direct
(already resolved) source.  The feed branch of line 149 is not modelled here:
no call site in the repository can reach it, because every caller guards on
the `url` property that feed sources lack.  The model covers an error-free
disk (temporary-file writes and unlinks succeed) and the abort timings
enumerated below. -/

/-- When the cooperative cancellation signal fires relative to the download. -/
inductive AbortTiming where
  | noAbort
  | beforeStart
  | duringDownload
deriving DecidableEq, Repr

/-- Terminal progress event of one downloadAndExtractUpdate call: the last
state sent through the progress callback. -/
inductive FinalEvent where
  | finalizingEv
  | errorEv
  | cancelledEv
deriving DecidableEq, Repr

deriving instance DecidableEq for Except

/-- Observable outcome of one downloadAndExtractUpdate call. -/
structure PipelineResult where
  outcome : Except JsError (Option String)
  finalEvent : FinalEvent
  extracted : Bool
  tempRemoved : Bool
deriving DecidableEq, Repr

/-- Normalisation `resolved.version || null` of update.js line 305. -/
def normalizeVersion (v : Option String) : Option String :=
  if optTruthy v then v else none

/-- update.js lines 143-306: downloadAndExtractUpdate for a direct source.
Sequencing: cancellation check, GET, ok check, descriptor sniffing, streaming
with optional running digest, checksum comparison on finish, extraction and
normalisation, with the cancelled/error catch split of lines 292-298 and the
guaranteed temp unlink of lines 299-303. -/
def downloadAndExtractPipeline (net : String → HttpResponse) (start : Resolved)
    (abort : AbortTiming) : PipelineResult :=
  if abort = .beforeStart then
    { outcome := .error cancellationError, finalEvent := .cancelledEv
      extracted := false, tempRemoved := true }
  else
    let r1 := net start.url
    if ¬ r1.ok then
      { outcome := .error downloadFailedError, finalEvent := .errorEv
        extracted := false, tempRemoved := true }
    else
      match descriptorStep net start r1 with
      | .errorOut e =>
          { outcome := .error e
            finalEvent := if e.cancelled then .cancelledEv else .errorEv
            extracted := false, tempRemoved := true }
      | .proceed resolved resp =>
          if abort = .duringDownload then
            { outcome := .error cancellationError, finalEvent := .cancelledEv
              extracted := false, tempRemoved := true }
          else
            match resolved.sha256 with
            | some sha =>
                if strTruthy sha then
                  if lowerStr resp.bodyDigest = lowerStr sha then
                    { outcome := .ok (normalizeVersion resolved.version)
                      finalEvent := .finalizingEv, extracted := true, tempRemoved := true }
                  else
                    { outcome := .error checksumError, finalEvent := .errorEv
                      extracted := false, tempRemoved := true }
                else
                  { outcome := .ok (normalizeVersion resolved.version)
                    finalEvent := .finalizingEv, extracted := true, tempRemoved := true }
            | none =>
                { outcome := .ok (normalizeVersion resolved.version)
                  finalEvent := .finalizingEv, extracted := true, tempRemoved := true }

/-! The orchestrator (main.js).  State: the two persisted scalars, the
single-flight flag `updateInProgress` and the abort-controller slot. -/

/-- The two persisted version scalars of the electron store. -/
structure Scalars where
  installedVersion : String
  lastKnownVersion : String
deriving DecidableEq, Repr

/-- Mutable module state of main.js relevant to the update workflows. -/
structure OrchState where
  updateInProgress : Bool
  abortControllerActive : Bool
  scalars : Scalars
deriving DecidableEq, Repr

/-- Result of runUpdateTask as seen by its caller. -/
inductive RunTaskResult where
  | busy
  | cancelledResult
  | failed (e : JsError)
  | okResult (version : Option String)
deriving DecidableEq, Repr

/-- main.js lines 172-194: runUpdateTask.  Throws the busy error without
touching any state when an operation is in flight; otherwise creates the
abort controller and the in-progress flag, runs the task (whose settled
outcome is the `taskOutcome` argument), converts a cancellation throw into a
cancelled return value, and in the finally block clears the controller and
the flag for every outcome. -/
def runUpdateTask (s : OrchState) (taskOutcome : Except JsError (Option String)) :
    RunTaskResult × OrchState :=
  if s.updateInProgress then
    (.busy, s)
  else
    let s' : OrchState :=
      { s with updateInProgress := false, abortControllerActive := false }
    match taskOutcome with
    | .ok v => (.okResult v, s')
    | .error e => if e.cancelled then (.cancelledResult, s') else (.failed e, s')

/-- Terminal behaviour of a mutating handler call as seen by the renderer. -/
inductive HandlerOutcome where
  | configError
  | busyError
  | cancelledOutcome
  | failedOutcome (e : JsError)
  | completedOutcome (version : Option String)
deriving DecidableEq, Repr

/-- main.js lines 339-374, 457-490 and 492-523: the shared shape of the
perform-install, trigger-update and fresh-reinstall handlers.  Each first
checks `!updateSource || !updateSource.url`, then runs the task through
runUpdateTask; a cancelled result returns early, a successful result with a
truthy version persists installedVersion and lastKnownVersion, and an error
is reported and rethrown.  `taskOutcome` is the settled outcome of the
underlying downloadAndExtractUpdate (or freshReinstall) call. -/
def mutatingHandler (env : Env) (s : OrchState)
    (taskOutcome : Except JsError (Option String)) : HandlerOutcome × OrchState :=
  if ¬ handlerAcceptsSource (resolveUpdateSource env) then
    (.configError, s)
  else
    match runUpdateTask s taskOutcome with
    | (.busy, s') => (.busyError, s')
    | (.cancelledResult, s') => (.cancelledOutcome, s')
    | (.failed e, s') => (.failedOutcome e, s')
    | (.okResult v, s') =>
        match v with
        | some ver =>
            if strTruthy ver then
              (.completedOutcome (some ver),
                { s' with scalars := { installedVersion := ver, lastKnownVersion := ver } })
            else
              (.completedOutcome (some ver), s')
        | none => (.completedOutcome none, s')

/-- Outcome of the feed-manifest fetch attempted by the get-state handler
(main.js lines 267-276); the version field is already normalised by
`manifest.version || null`. -/
inductive FeedFetch where
  | fetchFails
  | fetchOk (version : Option String)
deriving DecidableEq, Repr

/-- main.js lines 261-310 restricted to its persisted-scalar effect: the
read-only get-state handler writes lastKnownVersion whenever the resolved
update source exposes a truthy version (feed manifest version, or the direct
source version from PACK_VERSION). -/
def getStateStep (env : Env) (feed : FeedFetch) (s : Scalars) : Scalars :=
  match resolveUpdateSource env with
  | none => s
  | some (.feed _) =>
      match feed with
      | .fetchFails => s
      | .fetchOk v =>
          match v with
          | some ver => if strTruthy ver then { s with lastKnownVersion := ver } else s
          | none => s
  | some (.direct _ version _) =>
      match version with
      | some ver => if strTruthy ver then { s with lastKnownVersion := ver } else s
      | none => s

/-- main.js lines 527-532: the update-known-version handler writes
lastKnownVersion whenever the supplied version is truthy. -/
def updateKnownVersionStep (version : String) (s : Scalars) : Scalars :=
  if strTruthy version then { s with lastKnownVersion := version } else s

/-! The extraction effect on the install root (update.js lines 260-289).
Paths are segment lists relative to the install root; the filesystem is the
list of its files (membership is what matters; empty directories are not
represented, and the archive is modelled by its file entries). -/

/-- A filesystem path, as its list of segments relative to the install root. -/
abbrev FPath := List String

/-- Whether path p is the directory d itself or lies below it (what
`fs.promises.rm(d, recursive, force)` removes). -/
def isUnder (d p : FPath) : Bool := d.isPrefixOf p

/-- Whether path p lies strictly below directory d (a file inside d). -/
def properUnder (d p : FPath) : Bool := d.isPrefixOf p && d.length < p.length

/-- Recursive forced removal of a directory (or file) d. -/
def rmRecursive (d : FPath) (fs : List FPath) : List FPath :=
  fs.filter (fun p => ! isUnder d p)

/-- Relocation of a path from below src to the same position below dst. -/
def rebaseUnder (src dst p : FPath) : FPath := dst ++ p.drop src.length

/-- update.js lines 90-117: moveDirectoryContents.  When src exists as a
directory (here: some file lies below it), the destination is removed and
recreated, every entry of src is renamed below dst, and src is removed. -/
def moveDirContents (src dst : FPath) (fs : List FPath) : List FPath :=
  if fs.any (fun p => properUnder src p) then
    (fs.filter (fun p => ! isUnder dst p && ! isUnder src p)) ++
      ((fs.filter (fun p => properUnder src p)).map (rebaseUnder src dst))
  else fs

/-- update.js lines 119-141: moveFileIfExists, renaming a single file when
present. -/
def moveFileIfExists (src dst : FPath) (fs : List FPath) : List FPath :=
  if fs.any (fun p => p == src) then
    (fs.filter (fun p => ! (p == src))) ++ [dst]
  else fs

/-- update.js lines 264-269: the pre-extraction wipe of modpack/mods,
modpack/resourcepacks and the legacy root-level mods and resourcepacks. -/
def wipeDirs (fs : List FPath) : List FPath :=
  rmRecursive ["resourcepacks"]
    (rmRecursive ["mods"]
      (rmRecursive ["modpack", "resourcepacks"]
        (rmRecursive ["modpack", "mods"] fs)))

/-- update.js lines 284-289: post-extraction normalisation, moving legacy
mods and resourcepacks content into modpack and relocating the known
server-list files. -/
def normalizeLayout (fs : List FPath) : List FPath :=
  moveFileIfExists ["servers.dat_old"] ["modpack", "servers.dat_old"]
    (moveFileIfExists ["servers.dat"] ["modpack", "servers.dat"]
      (moveDirContents ["resourcepacks"] ["modpack", "resourcepacks"]
        (moveDirContents ["mods"] ["modpack", "mods"] fs)))

/-- update.js lines 260-289: the filesystem effect of a successful extraction
over install root fs.  Order as in the source: the pre-extraction wipe, then
every archive file extracted over the root (overwriting), then the
normalisation moves.  (ensureModpackStructure only creates directories and
has no effect on the file set.) -/
def extractPipelineFs (fs archive : List FPath) : List FPath :=
  normalizeLayout (wipeDirs fs ++ archive)

/-! Launch-requirement detection (launcher.js).  The filesystem is observed
through three primitives: readdir (with file types), stat-is-directory and
access, each modelled as a total function so filesystem failures appear as
explicit error results. -/

/-- One entry of a directory listing, as the source inspects it. -/
structure DirEntry where
  name : String
  isFile : Bool
  isDirectory : Bool
deriving DecidableEq, Repr

/-- A filesystem error with the two fields the source copies into
diagnostics. -/
structure FsError where
  message : String
  code : String
deriving DecidableEq, Repr

/-- A structured diagnostic of shape path-message-code, as pushed into
modpackErrors (launcher.js lines 349, 375, 387). -/
structure Diag where
  path : FPath
  message : String
  code : String
deriving DecidableEq, Repr

/-- The filesystem as observed by detection. -/
structure FsWorld where
  readdir : FPath → Except FsError (List DirEntry)
  statIsDir : FPath → Bool
  access : FPath → Bool

/-- launcher.js line 354: the test of an entry name against
`hellasforms-<version>.jar` (case-insensitive, version over word characters,
dots and dashes), returning the captured version text from the original
name. -/
def matchHellasJar (name : String) : Option String :=
  let lower := lowerStr name
  if strStarts lower "hellasforms-" && strEnds lower ".jar" then
    let middle := strDropRight (strDrop name 12) 4
    if middle ≠ "" &&
        middle.data.all (fun c => c.isAlphanum || c == '_' || c == '.' || c == '-') then
      some middle
    else none
  else none

/-- launcher.js lines 352-361: the inner entry loop of detectModpackVersion.
Returns the updated detected version and whether the loop short-circuited on
the expected jar name. -/
def scanEntries (expectedJar : Option String) (entries : List DirEntry)
    (detected : Option String) : Option String × Bool :=
  match entries with
  | [] => (detected, false)
  | e :: rest =>
      if e.isFile then
        match matchHellasJar e.name with
        | some v =>
            if expectedJar = some e.name then (some v, true)
            else scanEntries expectedJar rest (some v)
        | none => scanEntries expectedJar rest detected
      else scanEntries expectedJar rest detected

/-- Result of detectModpackVersion. -/
structure DetectResult where
  modpackJarPresent : Bool
  detectedVersion : Option String
deriving DecidableEq, Repr

/-- launcher.js lines 342-365: detectModpackVersion.  Scans the given mod
directories in order, capturing readdir failures as diagnostics, overwriting
the detected version on every matching jar, and returning early (with
modpackJarPresent true) when the expected jar name is seen; otherwise
modpackJarPresent is the truthiness of the last detected version. -/
def detectLoop (w : FsWorld) (expectedJar : Option String) :
    List FPath → Option String → List Diag → DetectResult × List Diag
  | [], detected, errs =>
      ({ modpackJarPresent := detected.isSome, detectedVersion := detected }, errs)
  | d :: rest, detected, errs =>
      match w.readdir d with
      | .error e =>
          detectLoop w expectedJar rest detected
            (errs ++ [{ path := d, message := e.message, code := e.code }])
      | .ok entries =>
          match scanEntries expectedJar entries detected with
          | (detected', true) =>
              ({ modpackJarPresent := true, detectedVersion := detected' }, errs)
          | (detected', false) => detectLoop w expectedJar rest detected' errs

/-- Helper for uniquePaths: drop any path already seen, keep the rest in
order. -/
def uniquePathsAux : List FPath → List FPath → List FPath
  | [], _ => []
  | p :: rest, seen =>
      if p ∈ seen then uniquePathsAux rest seen
      else p :: uniquePathsAux rest (p :: seen)

/-- launcher.js lines 367-369: uniquePaths, keeping the first occurrence of
each path (`Array.from(new Set(...))`). -/
def uniquePaths (ps : List FPath) : List FPath := uniquePathsAux ps []

/-- launcher.js lines 382-406: findNestedModDirectories, listing the install
root (capturing a failure as a diagnostic), and collecting each
`<entry>/mods` subdirectory of a directory entry that stats as a
directory. -/
def findNestedModDirectories (w : FsWorld) (installDir : FPath) :
    List FPath × List Diag :=
  match w.readdir installDir with
  | .error e => ([], [{ path := installDir, message := e.message, code := e.code }])
  | .ok entries =>
      let dirs := entries.filter (fun e => e.isDirectory)
      let candidates := dirs.map (fun e => installDir ++ [e.name, "mods"])
      (candidates.filter w.statIsDir, [])

/-- launcher.js lines 371-380 over a directory list: the diagnostics pushed
by readDirSafe for every directory whose listing fails. -/
def readDirDiags (w : FsWorld) : List FPath → List Diag
  | [] => []
  | d :: rest =>
      (match w.readdir d with
        | .error e => [{ path := d, message := e.message, code := e.code }]
        | .ok _ => []) ++ readDirDiags w rest

/-- The forge metadata endpoint as observed by fetchLatestForgeVersion: the
HTTP ok flag and the version strings extracted from the XML body (the
version tags matched by the regular expression of launcher.js line 208). -/
structure ForgeNet where
  ok : Bool
  versions : List String

/-- launcher.js lines 199-217: fetchLatestForgeVersion (the module-level
cache is not modelled).  Throws on a non-2xx response and when no version
starts with the pinned Minecraft version prefix; otherwise yields the last
matching version. -/
def fetchLatestForgeVersion (net : ForgeNet) : Except JsError String :=
  if ¬ net.ok then
    .error { message := "Failed to resolve Forge metadata.", cancelled := false }
  else
    let forgeVersions := net.versions.filter (fun v => strStarts v "1.16.5-")
    match forgeVersions.getLast? with
    | none =>
        .error { message := "No Forge versions found for Minecraft 1.16.5", cancelled := false }
    | some latest => .ok latest

/-- Result of checkLaunchRequirements (the fields the claims mention). -/
structure CheckResult where
  minecraftVersion : String
  forgeVersion : String
  modpackVersion : Option String
  searchedModDirectories : List FPath
  modpackErrors : List Diag
  minecraftReq : Bool
  forgeReq : Bool
  modpackReq : Bool
deriving DecidableEq, Repr

/-- launcher.js line 453: the expected jar name derived from a truthy
expectedModpackVersion. -/
def expectedJarName (expected : Option String) : Option String :=
  match expected with
  | some v => if strTruthy v then some ("hellasforms-" ++ v ++ ".jar") else none
  | none => none

/-- launcher.js lines 423-430: the scanned mod directories, canonical first,
then the legacy root directory, then the nested candidates, deduplicated. -/
def modDirectoriesOf (w : FsWorld) (installDir : FPath) : List FPath :=
  uniquePaths ([installDir ++ ["modpack", "mods"], installDir ++ ["mods"]] ++
    (findNestedModDirectories w installDir).1)

/-- launcher.js line 462: whether any scanned directory has a non-empty
listing (readDirSafe maps a failure to an empty listing). -/
def anyNonEmptyDir (w : FsWorld) (dirs : List FPath) : Bool :=
  dirs.any (fun d =>
    match w.readdir d with
    | .ok entries => ! entries.isEmpty
    | .error _ => false)

/-- launcher.js lines 408-481: checkLaunchRequirements.  Resolves the Forge
version first (propagating its throw), then probes the Minecraft and Forge
metadata files, collects the mod directories (canonical, legacy root, and
nested), reads them through readDirSafe and detectModpackVersion capturing
all failures as diagnostics, and derives the modpack requirement from the
jar-present flag or any non-empty listing. -/
def checkLaunchRequirements (net : ForgeNet) (w : FsWorld) (installDir : FPath)
    (expectedModpackVersion : Option String) : Except JsError CheckResult :=
  match fetchLatestForgeVersion net with
  | .error e => .error e
  | .ok forgeVersion =>
      let modDirectories := modDirectoriesOf w installDir
      let detect := detectLoop w (expectedJarName expectedModpackVersion) modDirectories none []
      .ok
        { minecraftVersion := "1.16.5"
          forgeVersion := forgeVersion
          modpackVersion := detect.1.detectedVersion
          searchedModDirectories := modDirectories
          modpackErrors := (findNestedModDirectories w installDir).2 ++
            readDirDiags w modDirectories ++ detect.2
          minecraftReq := w.access (installDir ++ ["versions", "1.16.5", "1.16.5.json"])
          forgeReq := w.access
              (installDir ++ ["versions", forgeVersion, forgeVersion ++ ".json"]) ||
            w.access (installDir ++
              ["forge", forgeVersion, "forge-" ++ forgeVersion ++ "-installer.jar"])
          modpackReq := detect.1.modpackJarPresent || anyNonEmptyDir w modDirectories }

/-! Definitions written from the specification wording, for comparison
against the source embedding, and concrete instances used by the
counterexamples and witnesses below. -/

/-- Modelled from the spec: the descriptor-sniffing trigger as the claim
words it, with the actual body size in place of the Content-Length header
(a JSON content-type, or a URL ending in .json, or a body of at most
512 KiB). -/
def specDescriptorTrigger (url : String) (r : HttpResponse) : Bool :=
  strContainsSub r.contentType "application/json" ||
    strEnds (lowerStr url) ".json" ||
    decide (r.bodySize ≤ 512 * 1024)

/-- The pack fields carried by the concrete descriptor below. -/
def realPackFields : PackFields := ⟨some "https://x/real.zip", some "3.1.0", none, none⟩

/-- An empty pack-fields record. -/
def emptyPackFields : PackFields := ⟨none, none, none, none⟩

/-- A concrete parsed descriptor body with a nested modpack object. -/
def smallManifest : ManifestJson := ⟨some realPackFields, emptyPackFields⟩

/-- A direct-source response carrying a small JSON descriptor body but no
Content-Length header and a non-JSON content-type. -/
def smallDescriptorResponse : HttpResponse :=
  { ok := true
    contentType := "application/octet-stream"
    contentLengthHeader := none
    bodySize := 40
    bodyJson := some smallManifest
    bodyDigest := "d0" }

/-- The same descriptor response with its Content-Length header declared. -/
def descriptorProbeWithLen : HttpResponse :=
  { smallDescriptorResponse with contentLengthHeader := some 40 }

/-- A plain ZIP response used as the real artifact in concrete scenarios. -/
def zipResponse : HttpResponse :=
  { ok := true
    contentType := "application/zip"
    contentLengthHeader := some (10 * 1024 * 1024)
    bodySize := 10 * 1024 * 1024
    bodyJson := none
    bodyDigest := "0a1b" }

/-- A concrete network: the pack URL serves the small descriptor, everything
else serves the plain ZIP. -/
def descriptorNet : String → HttpResponse := fun u =>
  if u = "https://x/pack" then smallDescriptorResponse else zipResponse

/-- The direct source pointing at the descriptor URL. -/
def packResolved : Resolved := { url := "https://x/pack", version := none, sha256 := none }

/-- A prior installation: a root-level servers.dat, a version cache file and
one old mod jar. -/
def priorInstallFs : List FPath :=
  [["servers.dat"], ["versions", "1.16.5", "1.16.5.json"], ["modpack", "mods", "oldmod.jar"]]

/-- A new archive containing a single new mod jar. -/
def newArchive : List FPath := [["modpack", "mods", "newmod.jar"]]

/-- A filesystem whose canonical mods directory holds exactly
hellasforms-1.0.0.jar; the install root lists empty and every other path
fails to read. -/
def oneJarWorld : FsWorld :=
  { readdir := fun p =>
      if p = ([] : FPath) then .ok []
      else if p = (["modpack", "mods"] : FPath) then
        .ok [{ name := "hellasforms-1.0.0.jar", isFile := true, isDirectory := false }]
      else .error { message := "no such file or directory", code := "ENOENT" }
    statIsDir := fun _ => false
    access := fun _ => false }

/-- A forge metadata endpoint that answers with one matching version. -/
def forgeNetOk : ForgeNet := { ok := true, versions := ["1.16.5-36.2.39"] }

/-- A forge metadata endpoint that answers with a non-2xx status. -/
def forgeNetDown : ForgeNet := { ok := false, versions := [] }

/-- A filesystem where every directory read fails with a permission error. -/
def allFailWorld : FsWorld :=
  { readdir := fun _ => .error { message := "permission denied", code := "EACCES" }
    statIsDir := fun _ => false
    access := fun _ => false }

/-- The empty environment: no configuration variable set. -/
def emptyEnv : Env := ⟨"", "", "", ""⟩

/-- An environment with only PACK_VERSION set. -/
def versionOnlyEnv : Env := ⟨"", "", "9.9.9", ""⟩

/-- An environment with only PACK_FEED_URL set. -/
def feedEnv : Env := ⟨"https://example.com/feed.json", "", "", ""⟩

/-- An idle orchestrator state with empty scalars. -/
def idleState : OrchState := ⟨false, false, ⟨"", ""⟩⟩

/-- A busy orchestrator state mid-operation. -/
def busyState : OrchState := ⟨true, true, ⟨"1.0.0", "1.0.0"⟩⟩

/-- A direct source with an expected SHA-256 that will not match
zipResponse. -/
def shaMismatchResolved : Resolved :=
  { url := "https://x/a.zip", version := some "2.0.0", sha256 := some "ffff" }

/-- A direct source whose expected SHA-256 matches zipResponse up to case. -/
def shaMatchResolved : Resolved :=
  { url := "https://x/a.zip", version := some "2.0.0", sha256 := some "0A1B" }

/-! Helper lemmas shared by the claim theorems. -/

lemma resolveUpdateSource_feed (env : Env)
    (h : strTruthy (jsTrim env.PACK_FEED_URL) = true) :
    resolveUpdateSource env = some (.feed (jsTrim env.PACK_FEED_URL)) := by
  unfold resolveUpdateSource
  simp [h]

lemma resolveUpdateSource_direct (env : Env)
    (h : strTruthy (jsTrim env.PACK_FEED_URL) = false) :
    resolveUpdateSource env = some (.direct
      (if strTruthy (jsTrim env.PACK_ZIP_URL) then (jsTrim env.PACK_ZIP_URL) else DEFAULT_PACK_URL)
      (envOrNull env.PACK_VERSION) (envOrNull env.PACK_EXPECTED_SHA256)) := by
  unfold resolveUpdateSource
  by_cases hd : strTruthy (jsTrim env.PACK_ZIP_URL)
  · simp [h, hd]
  · have hdef : strTruthy DEFAULT_PACK_URL = true := by decide
    simp [h, hd, hdef]

lemma mutatingHandler_settles (env : Env) (s : OrchState)
    (outcome : Except JsError (Option String))
    (hsrc : handlerAcceptsSource (resolveUpdateSource env) = true)
    (hb : s.updateInProgress = false) :
    (mutatingHandler env s outcome).1 ≠ HandlerOutcome.busyError ∧
    (mutatingHandler env s outcome).2.updateInProgress = false ∧
    (mutatingHandler env s outcome).2.abortControllerActive = false := by
  unfold mutatingHandler runUpdateTask
  simp only [hsrc, hb, Bool.true_eq_false, if_false, not_true_eq_false, if_true]
  cases outcome with
  | ok v =>
      cases v with
      | none => simp
      | some ver =>
          by_cases htr : strTruthy ver = true
          · simp [htr]
          · simp [htr]
  | error e =>
      by_cases hc : e.cancelled = true
      · simp [hc]
      · simp [hc]

lemma mutatingHandler_busy (env : Env) (s : OrchState)
    (outcome : Except JsError (Option String))
    (hsrc : handlerAcceptsSource (resolveUpdateSource env) = true)
    (hb : s.updateInProgress = true) :
    mutatingHandler env s outcome = (.busyError, s) := by
  unfold mutatingHandler runUpdateTask
  simp [hsrc, hb]

lemma mutatingHandler_error_scalars (env : Env) (s : OrchState) (e : JsError) :
    (mutatingHandler env s (.error e)).2.scalars = s.scalars := by
  unfold mutatingHandler runUpdateTask
  by_cases hsrc : handlerAcceptsSource (resolveUpdateSource env) = true
  · by_cases hb : s.updateInProgress = true
    · simp [hsrc, hb]
    · by_cases hc : e.cancelled = true
      · simp [hsrc, hb, hc]
      · simp [hsrc, hb, hc]
  · simp [hsrc]

/-! Claim theorems. -/

/-- Claim C1: while an operation is running, starting a second mutating
operation (perform-install, trigger-update or fresh-reinstall) raises the
ConcurrencyError of main.js line 174 and leaves the whole orchestrator state,
persisted scalars included, untouched; when an operation settles by success,
failure or cancellation, the in-progress flag and the abort controller are
cleared in the guaranteed-cleanup step, after which a new operation is no
longer rejected as busy. -/
theorem single_flight_discipline (env : Env) (s : OrchState)
    (outcome : Except JsError (Option String))
    (hsrc : handlerAcceptsSource (resolveUpdateSource env) = true) :
    (s.updateInProgress = true →
      mutatingHandler env s outcome = (.busyError, s)) ∧
    (s.updateInProgress = false →
      (mutatingHandler env s outcome).2.updateInProgress = false ∧
      (mutatingHandler env s outcome).2.abortControllerActive = false ∧
      ∀ outcome2 : Except JsError (Option String),
        (mutatingHandler env (mutatingHandler env s outcome).2 outcome2).1 ≠
          HandlerOutcome.busyError) := by
  constructor
  · intro hb
    exact mutatingHandler_busy env s outcome hsrc hb
  · intro hb
    obtain ⟨-, h2, h3⟩ := mutatingHandler_settles env s outcome hsrc hb
    refine ⟨h2, h3, ?_⟩
    intro outcome2
    exact (mutatingHandler_settles env _ outcome2 hsrc h2).1

/-- Witness for single_flight_discipline at a concrete busy state and a
concrete idle state. -/
theorem single_flight_discipline_witness :
    mutatingHandler emptyEnv busyState (Except.ok (some "2.0.0")) =
      (HandlerOutcome.busyError, busyState) :=
  (single_flight_discipline emptyEnv busyState (Except.ok (some "2.0.0"))
    (by decide)).1 rfl

/-- Claim C2 (code bug in the source): with PACK_FEED_URL set, resolving
yields the feed source, yet every mutating handler rejects it through the
`!updateSource.url` guard and raises the ConfigurationError, because feed
sources carry no url property; the feed download pipeline is unreachable
from the mutating commands. -/
theorem feed_source_rejected_by_handlers (env : Env)
    (h : strTruthy (jsTrim env.PACK_FEED_URL) = true) :
    resolveUpdateSource env = some (.feed (jsTrim env.PACK_FEED_URL)) ∧
    handlerAcceptsSource (resolveUpdateSource env) = false ∧
    ∀ (s : OrchState) (outcome : Except JsError (Option String)),
      mutatingHandler env s outcome = (.configError, s) := by
  have h1 := resolveUpdateSource_feed env h
  have h2 : handlerAcceptsSource (resolveUpdateSource env) = false := by
    rw [h1]; rfl
  refine ⟨h1, h2, ?_⟩
  intro s outcome
  unfold mutatingHandler
  simp [h2]

/-- Witness for feed_source_rejected_by_handlers at a concrete feed URL. -/
theorem feed_source_rejected_by_handlers_witness :
    mutatingHandler feedEnv idleState (Except.ok (some "1.0.0")) =
      (HandlerOutcome.configError, idleState) :=
  (feed_source_rejected_by_handlers feedEnv (by decide)).2.2 idleState
    (Except.ok (some "1.0.0"))

/-- Counterexample to claim C7: the read-only get-state handler writes the
persisted lastKnownVersion scalar from the resolved source version before any
transfer has run (main.js line 279), here from PACK_VERSION with no feed
configured. -/
theorem getState_writes_lastKnownVersion :
    (getStateStep versionOnlyEnv .fetchFails ⟨"", ""⟩).lastKnownVersion = "9.9.9" ∧
    getStateStep versionOnlyEnv .fetchFails ⟨"", ""⟩ ≠ (⟨"", ""⟩ : Scalars) := by
  constructor
  · rfl
  · decide

/-- Claim C7 as amended: installedVersion is written only by the mutating
handlers on successful completion of a transfer with a truthy version, and a
failed or cancelled transfer writes neither scalar; lastKnownVersion is
additionally written by the read-only get-state handler (when the resolved
source exposes a version) and by the update-known-version command, neither of
which ever writes installedVersion. -/
theorem scalar_write_discipline :
    (∀ (env : Env) (feed : FeedFetch) (s : Scalars),
      (getStateStep env feed s).installedVersion = s.installedVersion) ∧
    (∀ (v : String) (s : Scalars),
      (updateKnownVersionStep v s).installedVersion = s.installedVersion) ∧
    (∀ (env : Env) (s : OrchState) (e : JsError),
      (mutatingHandler env s (.error e)).2.scalars = s.scalars) ∧
    (∀ (env : Env) (s : OrchState) (outcome : Except JsError (Option String)),
      (mutatingHandler env s outcome).2.scalars.installedVersion ≠
          s.scalars.installedVersion →
        ∃ v, outcome = .ok (some v) ∧ strTruthy v = true ∧
          (mutatingHandler env s outcome).2.scalars.installedVersion = v ∧
          (mutatingHandler env s outcome).2.scalars.lastKnownVersion = v ∧
          (mutatingHandler env s outcome).1 = .completedOutcome (some v)) := by
  refine ⟨?_, ?_, ?_, ?_⟩
  · intro env feed s
    unfold getStateStep
    cases hres : resolveUpdateSource env with
    | none => rfl
    | some src =>
        cases src with
        | feed u =>
            cases feed with
            | fetchFails => rfl
            | fetchOk v =>
                cases v with
                | none => rfl
                | some ver => by_cases htr : strTruthy ver = true <;> simp [htr]
        | direct u ver sha =>
            cases ver with
            | none => rfl
            | some v => by_cases htr : strTruthy v = true <;> simp [htr]
  · intro v s
    unfold updateKnownVersionStep
    by_cases htr : strTruthy v = true <;> simp [htr]
  · intro env s e
    exact mutatingHandler_error_scalars env s e
  · intro env s outcome hchg
    unfold mutatingHandler runUpdateTask at hchg ⊢
    by_cases hsrc : handlerAcceptsSource (resolveUpdateSource env) = true
    · by_cases hb : s.updateInProgress = true
      · simp [hsrc, hb] at hchg
      · cases outcome with
        | error e =>
            by_cases hc : e.cancelled = true
            · simp [hsrc, hb, hc] at hchg
            · simp [hsrc, hb, hc] at hchg
        | ok v =>
            cases v with
            | none => simp [hsrc, hb] at hchg
            | some ver =>
                by_cases htr : strTruthy ver = true
                · refine ⟨ver, rfl, htr, ?_⟩
                  simp [hsrc, hb, htr]
                · simp [hsrc, hb, htr] at hchg
    · simp [hsrc] at hchg

/-- Witness for scalar_write_discipline: a failed transfer leaves the scalars
of a concrete state unchanged. -/
theorem scalar_write_discipline_witness :
    (mutatingHandler emptyEnv busyState (.error checksumError)).2.scalars =
      busyState.scalars :=
  scalar_write_discipline.2.2.1 emptyEnv busyState checksumError

/-- Claim C10: resolveUpdateSource is total and never null: a non-empty
trimmed PACK_FEED_URL yields the feed source, otherwise a direct source whose
url is the trimmed PACK_ZIP_URL when non-empty and the hardcoded default pack
URL when empty; the null branch is unreachable because the default URL is a
non-empty constant. -/
theorem resolveUpdateSource_total (env : Env) :
    (resolveUpdateSource env).isSome = true ∧
    (strTruthy (jsTrim env.PACK_FEED_URL) = true →
      resolveUpdateSource env = some (.feed (jsTrim env.PACK_FEED_URL))) ∧
    (strTruthy (jsTrim env.PACK_FEED_URL) = false →
      resolveUpdateSource env = some (.direct
        (if strTruthy (jsTrim env.PACK_ZIP_URL) then (jsTrim env.PACK_ZIP_URL) else DEFAULT_PACK_URL)
        (envOrNull env.PACK_VERSION) (envOrNull env.PACK_EXPECTED_SHA256))) := by
  refine ⟨?_, resolveUpdateSource_feed env, resolveUpdateSource_direct env⟩
  by_cases hf : strTruthy (jsTrim env.PACK_FEED_URL) = true
  · rw [resolveUpdateSource_feed env hf]; rfl
  · rw [resolveUpdateSource_direct env (by simpa using hf)]; rfl

/-- Witness for resolveUpdateSource_total in the empty environment. -/
theorem resolveUpdateSource_total_witness :
    resolveUpdateSource emptyEnv ≠ none := by
  have h := (resolveUpdateSource_total emptyEnv).1
  intro hn
  rw [hn] at h
  simp at h

/-- Claim C3: when the resolved artifact carries an expected SHA-256 hash,
the stream digest is compared to it case-insensitively on completion; on a
mismatch the operation fails with the IntegrityError, extraction never runs
and the temporary archive is removed, while a case-insensitive match lets the
pipeline proceed into extraction. -/
theorem checksum_enforcement (net : String → HttpResponse) (start : Resolved)
    (resolved : Resolved) (resp : HttpResponse) (sha : String)
    (h1 : (net start.url).ok = true)
    (h2 : descriptorStep net start (net start.url) = .proceed resolved resp)
    (h3 : resolved.sha256 = some sha) (h4 : strTruthy sha = true) :
    (lowerStr resp.bodyDigest ≠ lowerStr sha →
      downloadAndExtractPipeline net start .noAbort =
        { outcome := .error checksumError, finalEvent := .errorEv
          extracted := false, tempRemoved := true }) ∧
    (lowerStr resp.bodyDigest = lowerStr sha →
      (downloadAndExtractPipeline net start .noAbort).extracted = true ∧
      (downloadAndExtractPipeline net start .noAbort).outcome =
        .ok (normalizeVersion resolved.version)) := by
  unfold downloadAndExtractPipeline
  simp only [h1, h2, h3, h4]
  constructor
  · intro hne
    simp [hne]
  · intro heq
    simp [heq]

/-- Witness for checksum_enforcement at a concrete mismatching download. -/
theorem checksum_enforcement_witness :
    downloadAndExtractPipeline (fun _ => zipResponse) shaMismatchResolved .noAbort =
      { outcome := .error checksumError, finalEvent := .errorEv
        extracted := false, tempRemoved := true } :=
  (checksum_enforcement (fun _ => zipResponse) shaMismatchResolved
    shaMismatchResolved zipResponse "ffff" rfl (by decide) rfl rfl).1 (by decide)

/-- Claim C4: an operation cancelled mid-download terminates with the
cancellation error (carrying the cancelled marker that distinguishes it from
a generic failure), the terminal status event is cancelled rather than error,
the temporary archive no longer exists, extraction never ran, and the handler
converts the outcome into a cancelled return that leaves the persisted
scalars, installedVersion included, unchanged. -/
theorem cancellation_roundtrip (env : Env) (net : String → HttpResponse)
    (start : Resolved) (s : OrchState) (resolved : Resolved) (resp : HttpResponse)
    (hsrc : handlerAcceptsSource (resolveUpdateSource env) = true)
    (hidle : s.updateInProgress = false)
    (h1 : (net start.url).ok = true)
    (h2 : descriptorStep net start (net start.url) = .proceed resolved resp) :
    (downloadAndExtractPipeline net start .duringDownload).outcome =
        .error cancellationError ∧
    cancellationError.cancelled = true ∧
    (downloadAndExtractPipeline net start .duringDownload).finalEvent = .cancelledEv ∧
    (downloadAndExtractPipeline net start .duringDownload).finalEvent ≠ .errorEv ∧
    (downloadAndExtractPipeline net start .duringDownload).tempRemoved = true ∧
    (downloadAndExtractPipeline net start .duringDownload).extracted = false ∧
    mutatingHandler env s (.error cancellationError) =
      (.cancelledOutcome, { s with updateInProgress := false, abortControllerActive := false }) ∧
    (mutatingHandler env s (.error cancellationError)).2.scalars = s.scalars := by
  have hpipe : downloadAndExtractPipeline net start .duringDownload =
      { outcome := .error cancellationError, finalEvent := .cancelledEv
        extracted := false, tempRemoved := true } := by
    unfold downloadAndExtractPipeline
    simp [h1, h2]
  have hhandler : mutatingHandler env s (.error cancellationError) =
      (.cancelledOutcome, { s with updateInProgress := false, abortControllerActive := false }) := by
    unfold mutatingHandler runUpdateTask
    simp [hsrc, hidle, cancellationError]
  refine ⟨by rw [hpipe], rfl, by rw [hpipe], by rw [hpipe]; decide, by rw [hpipe],
    by rw [hpipe], hhandler, by rw [hhandler]⟩

/-- Witness for cancellation_roundtrip at a concrete mid-download abort. -/
theorem cancellation_roundtrip_witness :
    (downloadAndExtractPipeline (fun _ => zipResponse) shaMatchResolved
        .duringDownload).outcome = .error cancellationError ∧
    (mutatingHandler emptyEnv idleState (.error cancellationError)).2.scalars =
      idleState.scalars := by
  have h := cancellation_roundtrip emptyEnv (fun _ => zipResponse) shaMatchResolved
    idleState shaMatchResolved zipResponse (by decide) rfl rfl (by decide)
  exact ⟨h.1, h.2.2.2.2.2.2.2⟩

/-- Counterexample to claim C8: a Direct-source response whose body is well
below 512 KiB and parses as a descriptor with a nested modpack url, but whose
Content-Length header is absent and whose content-type is not JSON, is used
directly as the artifact: the descriptor is not adopted and no second GET is
issued, while the claim prescribes re-issuing the GET against the nested
url. -/
theorem descriptor_small_body_counterexample :
    specDescriptorTrigger packResolved.url smallDescriptorResponse = true ∧
    smallDescriptorResponse.bodySize ≤ 512 * 1024 ∧
    (packOf (smallDescriptorResponse.bodyJson.getD
      { modpack := none, top := { url := none, version := none, sha256 := none, hash := none } })).url =
      some "https://x/real.zip" ∧
    descriptorStep descriptorNet packResolved smallDescriptorResponse =
      .proceed packResolved smallDescriptorResponse ∧
    packResolved.url ≠ "https://x/real.zip" := by
  refine ⟨by decide, by decide, rfl, by decide, by decide⟩

/-- Claim C8 as amended: the descriptor probe triggers on a JSON
content-type, a .json URL, or a declared positive Content-Length of at most
512 KiB (a small body without the header is not probed); when it triggers and
the body parses with a truthy nested url, the GET is re-issued against that
url adopting its version and hash; a parse failure falls back to the original
response unless the content-type was JSON, in which case the operation fails
with the SourceError; and a successful transfer with a truthy version
persists it as installedVersion. -/
theorem descriptor_indirection (net : String → HttpResponse) (res : Resolved)
    (r : HttpResponse) :
    (∀ m p u, shouldAttemptDescriptor res.url r = true →
      r.bodyJson = some m → packOf m = p → p.url = some u → strTruthy u = true →
      (net u).ok = true →
      descriptorStep net res r = .proceed
        { url := u, version := jsOr p.version res.version
          sha256 := jsOr p.sha256 (jsOr p.hash res.sha256) } (net u)) ∧
    (shouldAttemptDescriptor res.url r = true → r.bodyJson = none →
      strContainsSub r.contentType "application/json" = false →
      descriptorStep net res r = .proceed res r) ∧
    (shouldAttemptDescriptor res.url r = true → r.bodyJson = none →
      strContainsSub r.contentType "application/json" = true →
      descriptorStep net res r = .errorOut descriptorParseError) ∧
    (shouldAttemptDescriptor res.url r = false →
      descriptorStep net res r = .proceed res r) ∧
    (∀ (env : Env) (s : OrchState) (v : String),
      handlerAcceptsSource (resolveUpdateSource env) = true →
      s.updateInProgress = false → strTruthy v = true →
      (mutatingHandler env s (.ok (some v))).2.scalars.installedVersion = v) := by
  refine ⟨?_, ?_, ?_, ?_, ?_⟩
  · intro m p u htrig hjson hpack hurl htru hok
    subst hpack
    unfold descriptorStep
    simp [htrig, hjson, hurl, htru, hok]
  · intro htrig hjson hct
    unfold descriptorStep
    simp [htrig, hjson, hct]
  · intro htrig hjson hct
    unfold descriptorStep
    simp [htrig, hjson, hct]
  · intro htrig
    unfold descriptorStep
    simp [htrig]
  · intro env s v hsrc hidle htru
    unfold mutatingHandler runUpdateTask
    simp [hsrc, hidle, htru]

/-- Witness for descriptor_indirection at the concrete descriptor response
with a declared Content-Length. -/
theorem descriptor_indirection_witness :
    descriptorStep descriptorNet packResolved descriptorProbeWithLen =
      .proceed
        { url := "https://x/real.zip", version := some "3.1.0", sha256 := none }
        zipResponse := by
  have h := (descriptor_indirection descriptorNet packResolved
    descriptorProbeWithLen).1 smallManifest realPackFields
    "https://x/real.zip" (by decide) rfl rfl rfl (by decide) (by decide)
  simpa using h

/-! Lemmas about the extraction filesystem model. -/

lemma isUnder_eq_true_iff {d p : FPath} : isUnder d p = true ↔ d <+: p := by
  simp [isUnder, List.isPrefixOf_iff_prefix]

lemma properUnder_eq_true_iff {d p : FPath} :
    properUnder d p = true ↔ d <+: p ∧ d.length < p.length := by
  simp [properUnder, List.isPrefixOf_iff_prefix]

lemma isUnder_eq_false_iff {d p : FPath} : isUnder d p = false ↔ ¬ d <+: p := by
  rw [Bool.eq_false_iff]
  exact not_congr isUnder_eq_true_iff

lemma mem_rmRecursive {d p : FPath} {fs : List FPath} :
    p ∈ rmRecursive d fs ↔ p ∈ fs ∧ ¬ d <+: p := by
  simp [rmRecursive, List.mem_filter, Bool.not_eq_true', isUnder_eq_false_iff]

lemma mem_wipeDirs {p : FPath} {fs : List FPath} :
    p ∈ wipeDirs fs ↔ p ∈ fs ∧ ¬ (["modpack", "mods"] : FPath) <+: p ∧
      ¬ (["modpack", "resourcepacks"] : FPath) <+: p ∧
      ¬ (["mods"] : FPath) <+: p ∧ ¬ (["resourcepacks"] : FPath) <+: p := by
  simp [wipeDirs, mem_rmRecursive]
  tauto

lemma moveDirContents_of_neg {src dst : FPath} {fs : List FPath}
    (h : fs.any (fun q => properUnder src q) = false) :
    moveDirContents src dst fs = fs := by
  simp [moveDirContents, h]

lemma mem_moveDirContents_pos {src dst p : FPath} {fs : List FPath}
    (h : fs.any (fun q => properUnder src q) = true) :
    p ∈ moveDirContents src dst fs ↔
      (p ∈ fs ∧ ¬ dst <+: p ∧ ¬ src <+: p) ∨
      ∃ q, q ∈ fs ∧ properUnder src q = true ∧ p = rebaseUnder src dst q := by
  simp only [moveDirContents, h, if_true, List.mem_append, List.mem_filter,
    List.mem_map, Bool.and_eq_true, Bool.not_eq_true', isUnder_eq_false_iff]
  constructor
  · rintro (⟨hp, hd, hs⟩ | ⟨q, ⟨hq, hpu⟩, rfl⟩)
    · exact Or.inl ⟨hp, hd, hs⟩
    · exact Or.inr ⟨q, hq, hpu, rfl⟩
  · rintro (⟨hp, hd, hs⟩ | ⟨q, hq, hpu, rfl⟩)
    · exact Or.inl ⟨hp, hd, hs⟩
    · exact Or.inr ⟨q, ⟨hq, hpu⟩, rfl⟩

lemma moveFileIfExists_of_neg {src dst : FPath} {fs : List FPath} (h : src ∉ fs) :
    moveFileIfExists src dst fs = fs := by
  have hany : fs.any (fun q => q == src) = false := by
    rw [Bool.eq_false_iff]
    intro hc
    rw [List.any_eq_true] at hc
    obtain ⟨q, hq, hbeq⟩ := hc
    rw [beq_iff_eq] at hbeq
    exact h (hbeq ▸ hq)
  simp [moveFileIfExists, hany]

lemma mem_moveFileIfExists_pos {src dst p : FPath} {fs : List FPath} (h : src ∈ fs) :
    p ∈ moveFileIfExists src dst fs ↔ (p ∈ fs ∧ p ≠ src) ∨ p = dst := by
  have hany : fs.any (fun q => q == src) = true :=
    List.any_eq_true.2 ⟨src, h, by simp⟩
  simp [moveFileIfExists, hany, List.mem_append, List.mem_filter]

lemma prefix_head_ne {a b : String} (h : a ≠ b) {l1 l2 : List String} {p : FPath} :
    ((a :: l1 : FPath) <+: p) → ¬ ((b :: l2 : FPath) <+: p) := by
  rintro ⟨t, rfl⟩ ⟨u, hu⟩
  simp only [List.cons_append] at hu
  injection hu with h1 h2
  exact h h1.symm

lemma two_prefix_disjoint {a b c : String} (h : b ≠ c) {p : FPath} :
    (([a, b] : FPath) <+: p) → ¬ (([a, c] : FPath) <+: p) := by
  rintro ⟨t, rfl⟩ ⟨u, hu⟩
  simp only [List.cons_append, List.nil_append] at hu
  injection hu with h1 h2
  injection h2 with h3 h4
  exact h h3.symm

lemma rebaseUnder_starts (src dst : FPath) (q : FPath) :
    dst <+: rebaseUnder src dst q := by
  unfold rebaseUnder
  exact List.prefix_append _ _

lemma properUnder_one {a : String} {q : FPath} (h : properUnder [a] q = true) :
    ∃ t, q = a :: t ∧ t ≠ [] ∧ q.drop 1 = t := by
  obtain ⟨⟨t, rfl⟩, hlen⟩ := properUnder_eq_true_iff.1 h
  refine ⟨t, by simp, ?_, by simp⟩
  intro ht
  subst ht
  simp at hlen

lemma normalizeLayout_under_cases {fs5 : List FPath} {p : FPath}
    (hp : (["modpack", "mods"] : FPath) <+: p ∨
      (["modpack", "resourcepacks"] : FPath) <+: p ∨
      (["mods"] : FPath) <+: p ∨ (["resourcepacks"] : FPath) <+: p)
    (hmem : p ∈ normalizeLayout fs5) :
    p ∈ fs5 ∨
      (∃ t, p = ["modpack", "mods"] ++ t ∧ ((["mods"] ++ t : FPath) ∈ fs5)) ∨
      (∃ t, p = ["modpack", "resourcepacks"] ++ t ∧
        ((["resourcepacks"] ++ t : FPath) ∈ fs5)) := by
  have hsd : p ≠ ["servers.dat"] := by
    rintro rfl
    rcases hp with h | h | h | h <;> exact absurd h (by decide)
  have hso : p ≠ ["servers.dat_old"] := by
    rintro rfl
    rcases hp with h | h | h | h <;> exact absurd h (by decide)
  have hmsd : p ≠ ["modpack", "servers.dat"] := by
    rintro rfl
    rcases hp with h | h | h | h <;> exact absurd h (by decide)
  have hmso : p ≠ ["modpack", "servers.dat_old"] := by
    rintro rfl
    rcases hp with h | h | h | h <;> exact absurd h (by decide)
  unfold normalizeLayout at hmem
  -- peel the servers.dat_old move
  have hmem2 : p ∈ moveFileIfExists ["servers.dat"] ["modpack", "servers.dat"]
      (moveDirContents ["resourcepacks"] ["modpack", "resourcepacks"]
        (moveDirContents ["mods"] ["modpack", "mods"] fs5)) := by
    by_cases hin : (["servers.dat_old"] : FPath) ∈
        moveFileIfExists ["servers.dat"] ["modpack", "servers.dat"]
          (moveDirContents ["resourcepacks"] ["modpack", "resourcepacks"]
            (moveDirContents ["mods"] ["modpack", "mods"] fs5))
    · rcases (mem_moveFileIfExists_pos hin).1 hmem with ⟨hm, -⟩ | hdst
      · exact hm
      · exact absurd hdst hmso
    · rwa [moveFileIfExists_of_neg hin] at hmem
  -- peel the servers.dat move
  have hmem3 : p ∈ moveDirContents ["resourcepacks"] ["modpack", "resourcepacks"]
      (moveDirContents ["mods"] ["modpack", "mods"] fs5) := by
    by_cases hin : (["servers.dat"] : FPath) ∈
        moveDirContents ["resourcepacks"] ["modpack", "resourcepacks"]
          (moveDirContents ["mods"] ["modpack", "mods"] fs5)
    · rcases (mem_moveFileIfExists_pos hin).1 hmem2 with ⟨hm, -⟩ | hdst
      · exact hm
      · exact absurd hdst hmsd
    · rwa [moveFileIfExists_of_neg hin] at hmem2
  -- helper: a path below mods in the first-move result is in fs5
  have hA : ∀ q : FPath, q ∈ moveDirContents ["mods"] ["modpack", "mods"] fs5 →
      (∀ a : String, q.head? = some a → a ≠ "modpack") → q ∈ fs5 := by
    intro q hq hhead
    by_cases htr : fs5.any (fun x => properUnder ["mods"] x) = true
    · rcases (mem_moveDirContents_pos htr).1 hq with ⟨hm, -, -⟩ | ⟨x, -, -, rfl⟩
      · exact hm
      · exact absurd rfl (hhead "modpack" rfl)
    · rwa [moveDirContents_of_neg (by simpa using htr)] at hq
  -- peel the resourcepacks move
  have hmem4 : p ∈ moveDirContents ["mods"] ["modpack", "mods"] fs5 ∨
      (∃ t, p = ["modpack", "resourcepacks"] ++ t ∧
        ((["resourcepacks"] ++ t : FPath) ∈ fs5)) := by
    by_cases htr : (moveDirContents ["mods"] ["modpack", "mods"] fs5).any
        (fun x => properUnder ["resourcepacks"] x) = true
    · rcases (mem_moveDirContents_pos htr).1 hmem3 with ⟨hm, -, -⟩ | ⟨q, hq, hpu, rfl⟩
      · exact Or.inl hm
      · obtain ⟨t, rfl, -, hdrop⟩ := properUnder_one hpu
        refine Or.inr ⟨t, by simp [rebaseUnder], ?_⟩
        have : ("resourcepacks" :: t : FPath) ∈ fs5 :=
          hA _ hq (by intro a ha hcontra; simp at ha; subst hcontra; simp at ha)
        simpa using this
    · rw [moveDirContents_of_neg (by simpa using htr)] at hmem3
      exact Or.inl hmem3
  rcases hmem4 with hmem4 | hmapped
  · -- peel the mods move
    by_cases htr : fs5.any (fun x => properUnder ["mods"] x) = true
    · rcases (mem_moveDirContents_pos htr).1 hmem4 with ⟨hm, -, -⟩ | ⟨q, hq, hpu, rfl⟩
      · exact Or.inl hm
      · obtain ⟨t, rfl, -, hdrop⟩ := properUnder_one hpu
        refine Or.inr (Or.inl ⟨t, by simp [rebaseUnder], by simpa using hq⟩)
    · rw [moveDirContents_of_neg (by simpa using htr)] at hmem4
      exact Or.inl hmem4
  · exact Or.inr (Or.inr hmapped)

lemma normalizeLayout_frame {fs5 : List FPath} {p : FPath}
    (h1 : ¬ (["modpack", "mods"] : FPath) <+: p)
    (h2 : ¬ (["modpack", "resourcepacks"] : FPath) <+: p)
    (h3 : ¬ (["mods"] : FPath) <+: p)
    (h4 : ¬ (["resourcepacks"] : FPath) <+: p)
    (h5 : p ≠ ["servers.dat"]) (h6 : p ≠ ["servers.dat_old"])
    (h7 : p ≠ ["modpack", "servers.dat"]) (h8 : p ≠ ["modpack", "servers.dat_old"]) :
    p ∈ normalizeLayout fs5 ↔ p ∈ fs5 := by
  have stepDir : ∀ (src dst : FPath) (L : List FPath),
      ¬ dst <+: p → ¬ src <+: p →
      (p ∈ moveDirContents src dst L ↔ p ∈ L) := by
    intro src dst L hdst hsrc
    by_cases htr : L.any (fun x => properUnder src x) = true
    · rw [mem_moveDirContents_pos htr]
      constructor
      · rintro (⟨hm, -, -⟩ | ⟨q, hq, hpu, rfl⟩)
        · exact hm
        · exact absurd (rebaseUnder_starts src dst q) hdst
      · intro hm
        exact Or.inl ⟨hm, hdst, hsrc⟩
    · rw [moveDirContents_of_neg (by simpa using htr)]
  have stepFile : ∀ (src dst : FPath) (L : List FPath),
      p ≠ src → p ≠ dst →
      (p ∈ moveFileIfExists src dst L ↔ p ∈ L) := by
    intro src dst L hsrc hdst
    by_cases hin : src ∈ L
    · rw [mem_moveFileIfExists_pos hin]
      constructor
      · rintro (⟨hm, -⟩ | hd)
        · exact hm
        · exact absurd hd hdst
      · intro hm
        exact Or.inl ⟨hm, hsrc⟩
    · rw [moveFileIfExists_of_neg hin]
  unfold normalizeLayout
  rw [stepFile _ _ _ h6 h8, stepFile _ _ _ h5 h7, stepDir _ _ _ h2 h4,
    stepDir _ _ _ h1 h3]

/-- Counterexample to claim C5: a root-level servers.dat from the prior
installation, not written by the new archive, does not survive extraction
unchanged: normalisation relocates it to modpack/servers.dat. -/
theorem servers_dat_relocated_counterexample :
    (["servers.dat"] : FPath) ∈ priorInstallFs ∧
    (["servers.dat"] : FPath) ∉ newArchive ∧
    (["servers.dat"] : FPath) ∉ extractPipelineFs priorInstallFs newArchive ∧
    (["modpack", "servers.dat"] : FPath) ∈ extractPipelineFs priorInstallFs newArchive := by
  refine ⟨by decide, by decide, by decide, by decide⟩

/-- Claim C5 as amended: the prior contents of modpack/mods,
modpack/resourcepacks and the legacy root-level mods and resourcepacks
directories are deleted before unpacking, so after extraction any path below
those directories comes from the new archive (directly, or relocated from the
archive's own legacy layout); every other install-root path not written by
the archive is left unchanged, except the server-list files servers.dat and
servers.dat_old at the install root, which are relocated into modpack. -/
theorem extraction_replace_not_merge (fs archive : List FPath) (p : FPath) :
    (((["modpack", "mods"] : FPath) <+: p ∨
        (["modpack", "resourcepacks"] : FPath) <+: p ∨
        (["mods"] : FPath) <+: p ∨ (["resourcepacks"] : FPath) <+: p) →
      p ∈ extractPipelineFs fs archive →
      p ∈ archive ∨
        (∃ t, p = ["modpack", "mods"] ++ t ∧ ((["mods"] ++ t : FPath) ∈ archive)) ∨
        (∃ t, p = ["modpack", "resourcepacks"] ++ t ∧
          ((["resourcepacks"] ++ t : FPath) ∈ archive))) ∧
    (¬ (["modpack", "mods"] : FPath) <+: p →
      ¬ (["modpack", "resourcepacks"] : FPath) <+: p →
      ¬ (["mods"] : FPath) <+: p → ¬ (["resourcepacks"] : FPath) <+: p →
      p ∉ archive → p ≠ ["servers.dat"] → p ≠ ["servers.dat_old"] →
      p ≠ ["modpack", "servers.dat"] → p ≠ ["modpack", "servers.dat_old"] →
      (p ∈ extractPipelineFs fs archive ↔ p ∈ fs)) := by
  have hfive : ∀ q : FPath, q ∈ wipeDirs fs ++ archive →
      ((["modpack", "mods"] : FPath) <+: q ∨
        (["modpack", "resourcepacks"] : FPath) <+: q ∨
        (["mods"] : FPath) <+: q ∨ (["resourcepacks"] : FPath) <+: q) →
      q ∈ archive := by
    intro q hq hyp
    rcases List.mem_append.1 hq with h | h
    · obtain ⟨-, g1, g2, g3, g4⟩ := mem_wipeDirs.1 h
      rcases hyp with h' | h' | h' | h'
      · exact absurd h' g1
      · exact absurd h' g2
      · exact absurd h' g3
      · exact absurd h' g4
    · exact h
  constructor
  · intro hp hmem
    unfold extractPipelineFs at hmem
    rcases normalizeLayout_under_cases hp hmem with h | ⟨t, rfl, ht⟩ | ⟨t, rfl, ht⟩
    · exact Or.inl (hfive p h hp)
    · refine Or.inr (Or.inl ⟨t, rfl, ?_⟩)
      exact hfive _ ht (Or.inr (Or.inr (Or.inl (List.prefix_append _ _))))
    · refine Or.inr (Or.inr ⟨t, rfl, ?_⟩)
      exact hfive _ ht (Or.inr (Or.inr (Or.inr (List.prefix_append _ _))))
  · intro h1 h2 h3 h4 harch h5 h6 h7 h8
    unfold extractPipelineFs
    rw [normalizeLayout_frame h1 h2 h3 h4 h5 h6 h7 h8, List.mem_append]
    constructor
    · rintro (h | h)
      · exact (mem_wipeDirs.1 h).1
      · exact absurd h harch
    · intro h
      exact Or.inl (mem_wipeDirs.2 ⟨h, h1, h2, h3, h4⟩)

/-- Witness for extraction_replace_not_merge: the versions cache file of the
prior installation survives the concrete extraction unchanged, and the old
mod jar does not. -/
theorem extraction_replace_not_merge_witness :
    ((["versions", "1.16.5", "1.16.5.json"] : FPath) ∈
      extractPipelineFs priorInstallFs newArchive) ∧
    ¬ ((["modpack", "mods", "oldmod.jar"] : FPath) ∈ newArchive ∨
      (∃ t, (["modpack", "mods", "oldmod.jar"] : FPath) = ["modpack", "mods"] ++ t ∧
        ((["mods"] ++ t : FPath) ∈ newArchive)) ∨
      (∃ t, (["modpack", "mods", "oldmod.jar"] : FPath) =
          ["modpack", "resourcepacks"] ++ t ∧
        ((["resourcepacks"] ++ t : FPath) ∈ newArchive))) ∧
    (["modpack", "mods", "oldmod.jar"] : FPath) ∉
      extractPipelineFs priorInstallFs newArchive := by
  have hframe := (extraction_replace_not_merge priorInstallFs newArchive
    ["versions", "1.16.5", "1.16.5.json"]).2 (by decide) (by decide) (by decide)
    (by decide) (by decide) (by decide) (by decide) (by decide) (by decide)
  have hrep := (extraction_replace_not_merge priorInstallFs newArchive
    ["modpack", "mods", "oldmod.jar"]).1 (Or.inl (by decide))
  refine ⟨hframe.2 (by decide), ?_, ?_⟩
  · rintro (h | ⟨t, ht, hm⟩ | ⟨t, ht, hm⟩)
    · exact absurd h (by decide)
    · have heq : (["oldmod.jar"] : List String) = t := by simpa using ht
      subst heq
      exact absurd hm (by decide)
    · simp at ht
  · intro hmem
    rcases hrep hmem with h | ⟨t, ht, hm⟩ | ⟨t, ht, hm⟩
    · exact absurd h (by decide)
    · have heq : (["oldmod.jar"] : List String) = t := by simpa using ht
      subst heq
      exact absurd hm (by decide)
    · simp at ht

/-! Lemmas about the detection model. -/

lemma matchHellasJar_one : matchHellasJar "hellasforms-1.0.0.jar" = some "1.0.0" := by
  decide

lemma checkLaunchRequirements_eq (net : ForgeNet) (w : FsWorld) (dir : FPath)
    (expected : Option String) (fv : String)
    (hfv : fetchLatestForgeVersion net = .ok fv) :
    checkLaunchRequirements net w dir expected =
      .ok
        { minecraftVersion := "1.16.5"
          forgeVersion := fv
          modpackVersion := (detectLoop w (expectedJarName expected)
            (modDirectoriesOf w dir) none []).1.detectedVersion
          searchedModDirectories := modDirectoriesOf w dir
          modpackErrors := (findNestedModDirectories w dir).2 ++
            readDirDiags w (modDirectoriesOf w dir) ++
            (detectLoop w (expectedJarName expected) (modDirectoriesOf w dir) none []).2
          minecraftReq := w.access (dir ++ ["versions", "1.16.5", "1.16.5.json"])
          forgeReq := w.access (dir ++ ["versions", fv, fv ++ ".json"]) ||
            w.access (dir ++ ["forge", fv, "forge-" ++ fv ++ "-installer.jar"])
          modpackReq := (detectLoop w (expectedJarName expected)
              (modDirectoriesOf w dir) none []).1.modpackJarPresent ||
            anyNonEmptyDir w (modDirectoriesOf w dir) } := by
  unfold checkLaunchRequirements
  rw [hfv]

lemma readDirDiags_mem (w : FsWorld) (dirs : List FPath) {d : FPath} {e : FsError}
    (hd : d ∈ dirs) (he : w.readdir d = .error e) :
    ({ path := d, message := e.message, code := e.code } : Diag) ∈ readDirDiags w dirs := by
  induction dirs with
  | nil => cases hd
  | cons x rest ih =>
      rcases List.mem_cons.1 hd with rfl | hmem
      · simp [readDirDiags, he]
      · rcases hx : w.readdir x with e' | entries <;>
          simp [readDirDiags, hx, ih hmem]

lemma findNested_error (w : FsWorld) {dir : FPath} {e : FsError}
    (he : w.readdir dir = .error e) :
    (findNestedModDirectories w dir).2 =
      [{ path := dir, message := e.message, code := e.code }] := by
  simp [findNestedModDirectories, he]

lemma scanEntries_only_jar :
    ∀ (entries : List DirEntry) (detected : Option String),
      (∀ e ∈ entries, e.isFile = true →
        matchHellasJar e.name = none ∨ e.name = "hellasforms-1.0.0.jar") →
      (scanEntries (some "hellasforms-2.0.0.jar") entries detected).2 = false ∧
      ((scanEntries (some "hellasforms-2.0.0.jar") entries detected).1 = detected ∨
        (scanEntries (some "hellasforms-2.0.0.jar") entries detected).1 = some "1.0.0") ∧
      ((∃ e ∈ entries, e.isFile = true ∧ e.name = "hellasforms-1.0.0.jar") →
        (scanEntries (some "hellasforms-2.0.0.jar") entries detected).1 = some "1.0.0") := by
  intro entries
  induction entries with
  | nil =>
      intro detected h
      refine ⟨rfl, Or.inl rfl, ?_⟩
      rintro ⟨e, he, -⟩
      cases he
  | cons e rest ih =>
      intro detected h
      have hrest : ∀ x ∈ rest, x.isFile = true →
          matchHellasJar x.name = none ∨ x.name = "hellasforms-1.0.0.jar" :=
        fun x hx => h x (List.mem_cons_of_mem e hx)
      by_cases hf : e.isFile = true
      · rcases h e (List.mem_cons_self e rest) hf with hnone | hjar
        · rw [scanEntries]
          simp only [hf, if_true, hnone]
          obtain ⟨ih1, ih2, ih3⟩ := ih detected hrest
          refine ⟨ih1, ih2, ?_⟩
          rintro ⟨x, hx, hxf, hxn⟩
          rcases List.mem_cons.1 hx with rfl | hxm
          · rw [hxn] at hnone
            rw [matchHellasJar_one] at hnone
            cases hnone
          · exact ih3 ⟨x, hxm, hxf, hxn⟩
        · have hm : matchHellasJar e.name = some "1.0.0" := by
            rw [hjar]; exact matchHellasJar_one
          have hne : ¬ ((some "hellasforms-2.0.0.jar" : Option String) = some e.name) := by
            rw [hjar]; decide
          rw [scanEntries]
          simp only [hf, if_true, hm, hne, if_neg hne]
          obtain ⟨ih1, ih2, ih3⟩ := ih (some "1.0.0") hrest
          refine ⟨ih1, ?_, fun _ => ?_⟩
          · rcases ih2 with h' | h' <;> exact Or.inr h'
          · rcases ih2 with h' | h' <;> exact h'
      · rw [scanEntries]
        simp only [hf, if_false, Bool.false_eq_true]
        obtain ⟨ih1, ih2, ih3⟩ := ih detected hrest
        refine ⟨ih1, ih2, ?_⟩
        rintro ⟨x, hx, hxf, hxn⟩
        rcases List.mem_cons.1 hx with rfl | hxm
        · exact absurd hxf hf
        · exact ih3 ⟨x, hxm, hxf, hxn⟩

lemma detectLoop_only_jar (w : FsWorld)
    (H1 : ∀ p entries, w.readdir p = .ok entries → ∀ e ∈ entries, e.isFile = true →
      matchHellasJar e.name = none ∨ e.name = "hellasforms-1.0.0.jar") :
    ∀ (dirs : List FPath) (detected : Option String) (errs : List Diag),
      (detected = none ∨ detected = some "1.0.0") →
      ((∃ d ∈ dirs, ∃ entries, w.readdir d = .ok entries ∧
          ∃ e ∈ entries, e.isFile = true ∧ e.name = "hellasforms-1.0.0.jar") ∨
        detected = some "1.0.0") →
      (detectLoop w (some "hellasforms-2.0.0.jar") dirs detected
          errs).1.detectedVersion = some "1.0.0" ∧
      (detectLoop w (some "hellasforms-2.0.0.jar") dirs detected
          errs).1.modpackJarPresent = true := by
  intro dirs
  induction dirs with
  | nil =>
      intro detected errs hinv hfound
      rcases hfound with ⟨d, hd, -⟩ | rfl
      · cases hd
      · exact ⟨rfl, rfl⟩
  | cons d rest ih =>
      intro detected errs hinv hfound
      rcases hw : w.readdir d with e | entries
      · rw [detectLoop]
        simp only [hw]
        refine ih detected _ hinv ?_
        rcases hfound with ⟨x, hx, entries2, hread, hfx⟩ | hdet
        · rcases List.mem_cons.1 hx with rfl | hxm
          · rw [hw] at hread
            exact absurd hread (by rintro ⟨⟩)
          · exact Or.inl ⟨x, hxm, entries2, hread, hfx⟩
        · exact Or.inr hdet
      · obtain ⟨hsc1, hsc2, hsc3⟩ :=
          scanEntries_only_jar entries detected (H1 d entries hw)
        rw [detectLoop]
        simp only [hw]
        rcases hsc : scanEntries (some "hellasforms-2.0.0.jar") entries detected with
          ⟨detected', early⟩
        have hearly : early = false := by
          have := hsc1
          rw [hsc] at this
          exact this
        subst hearly
        have hinv' : detected' = none ∨ detected' = some "1.0.0" := by
          have h2 := hsc2
          rw [hsc] at h2
          rcases h2 with h2 | h2
          · simp only at h2
            rw [h2]
            exact hinv
          · exact Or.inr h2
        refine ih detected' _ hinv' ?_
        rcases hfound with ⟨x, hx, entries2, hread, hfx⟩ | hdet
        · rcases List.mem_cons.1 hx with rfl | hxm
          · right
            rw [hw] at hread
            injection hread with hread'
            subst hread'
            have h3 := hsc3
            rw [hsc] at h3
            exact h3 hfx
          · exact Or.inl ⟨x, hxm, entries2, hread, hfx⟩
        · right
          have h2 := hsc2
          rw [hsc] at h2
          rcases h2 with h2 | h2
          · simp only at h2
            rw [h2, hdet]
          · exact h2

/-- Counterexample to claim C6: with only hellasforms-1.0.0.jar installed and
expectedVersion 2.0.0, detection returns modpackVersion 1.0.0 as claimed, but
the modpack requirement is satisfied (true), not false: presence is derived
from any jar matching the naming convention or any non-empty mods
directory. -/
theorem version_precedence_counterexample :
    (checkLaunchRequirements forgeNetOk oneJarWorld [] (some "2.0.0")).toOption.map
        (fun r => r.modpackVersion) = some (some "1.0.0") ∧
    (checkLaunchRequirements forgeNetOk oneJarWorld [] (some "2.0.0")).toOption.map
        (fun r => r.modpackReq) = some true := by
  exact ⟨by rfl, by rfl⟩

/-- Claim C6 as amended: for every install root whose mod directories contain
only hellasforms-1.0.0.jar, detection with expectedVersion 2.0.0 returns
modpackVersion 1.0.0 and reports the modpack requirement as satisfied (true):
the expected version only controls the early short-circuit of the scan, not
the presence bit. -/
theorem version_precedence_amended (net : ForgeNet) (w : FsWorld) (dir : FPath)
    (fv : String) (hfv : fetchLatestForgeVersion net = .ok fv)
    (H1 : ∀ p entries, w.readdir p = .ok entries → ∀ e ∈ entries, e.isFile = true →
      matchHellasJar e.name = none ∨ e.name = "hellasforms-1.0.0.jar")
    (H2 : ∃ entries, w.readdir (dir ++ ["modpack", "mods"]) = .ok entries ∧
      ∃ e ∈ entries, e.isFile = true ∧ e.name = "hellasforms-1.0.0.jar") :
    (checkLaunchRequirements net w dir (some "2.0.0")).toOption.map
      (fun r => (r.modpackVersion, r.modpackReq)) = some (some "1.0.0", true) := by
  have hexp : expectedJarName (some "2.0.0") = some "hellasforms-2.0.0.jar" := by decide
  have hmem : (dir ++ ["modpack", "mods"]) ∈ modDirectoriesOf w dir := by
    simp [modDirectoriesOf, uniquePaths, uniquePathsAux]
  have hdl := detectLoop_only_jar w H1 (modDirectoriesOf w dir) none []
    (Or.inl rfl) (Or.inl ⟨dir ++ ["modpack", "mods"], hmem, H2⟩)
  rw [checkLaunchRequirements_eq net w dir (some "2.0.0") fv hfv]
  rw [hexp]
  simp [Except.toOption, hdl.1, hdl.2]

/-- Witness for version_precedence_amended at the concrete one-jar world. -/
theorem version_precedence_amended_witness :
    (checkLaunchRequirements forgeNetOk oneJarWorld [] (some "2.0.0")).toOption.map
      (fun r => (r.modpackVersion, r.modpackReq)) = some (some "1.0.0", true) := by
  refine version_precedence_amended forgeNetOk oneJarWorld [] "1.16.5-36.2.39" rfl ?_ ?_
  · intro p entries h e he hf
    by_cases h0 : p = ([] : FPath)
    · subst h0
      rw [show oneJarWorld.readdir [] = .ok [] from rfl] at h
      injection h with h'
      subst h'
      cases he
    · by_cases h1 : p = (["modpack", "mods"] : FPath)
      · subst h1
        rw [show oneJarWorld.readdir ["modpack", "mods"] =
            .ok [{ name := "hellasforms-1.0.0.jar", isFile := true, isDirectory := false }]
          from rfl] at h
        injection h with h'
        subst h'
        rcases List.mem_singleton.1 he with rfl
        exact Or.inr rfl
      · have herr : oneJarWorld.readdir p =
            .error { message := "no such file or directory", code := "ENOENT" } := by
          simp [oneJarWorld, h0, h1]
        rw [herr] at h
        cases h
  · exact ⟨[{ name := "hellasforms-1.0.0.jar", isFile := true, isDirectory := false }],
      rfl, { name := "hellasforms-1.0.0.jar", isFile := true, isDirectory := false },
      by simp, rfl, rfl⟩

/-- Counterexample to claim C9: when the Forge-metadata fetch fails,
checkLaunchRequirements throws rather than returning a result, for any
install root. -/
theorem detection_throws_on_forge_failure :
    checkLaunchRequirements forgeNetDown allFailWorld [] none =
      .error { message := "Failed to resolve Forge metadata.", cancelled := false } := rfl

/-- Claim C9 as amended: provided the Forge-metadata fetch succeeds,
detection returns a result for every install root and every expectedVersion
and never throws; every directory-read failure over a scanned mod directory,
and a failed listing of the install root itself, is captured in the result as
a structured diagnostic of shape path-message-code. -/
theorem detection_degrades_gracefully (net : ForgeNet) (w : FsWorld) (dir : FPath)
    (expected : Option String) (fv : String)
    (hfv : fetchLatestForgeVersion net = .ok fv) :
    (checkLaunchRequirements net w dir expected).isOk = true ∧
    ∀ r, checkLaunchRequirements net w dir expected = .ok r →
      (∀ d, d ∈ r.searchedModDirectories → ∀ e, w.readdir d = .error e →
        ({ path := d, message := e.message, code := e.code } : Diag) ∈ r.modpackErrors) ∧
      (∀ e, w.readdir dir = .error e →
        ({ path := dir, message := e.message, code := e.code } : Diag) ∈ r.modpackErrors) := by
  rw [checkLaunchRequirements_eq net w dir expected fv hfv]
  constructor
  · rfl
  · intro r hr
    injection hr with hr'
    subst hr'
    constructor
    · intro d hd e he
      refine List.mem_append.2 (Or.inl (List.mem_append.2 (Or.inr ?_)))
      exact readDirDiags_mem w _ hd he
    · intro e he
      refine List.mem_append.2 (Or.inl (List.mem_append.2 (Or.inl ?_)))
      rw [findNested_error w he]
      simp

/-- Witness for detection_degrades_gracefully on the all-failing
filesystem. -/
theorem detection_degrades_gracefully_witness :
    (checkLaunchRequirements forgeNetOk allFailWorld [] none).isOk = true :=
  (detection_degrades_gracefully forgeNetOk allFailWorld [] none
    "1.16.5-36.2.39" rfl).1

end Hellas
